import Mathlib

set_option maxHeartbeats 1000000

/-!
Verification development for `annotate.py`, an interactive tool for
annotating circular regions in images.  Python strings are modelled as
`List Char`, the file system as a map from path to the file's lines,
and the interactive loop of `annotate_image` as a step function over
the function's mutable locals, driven by a list of delivered events.
-/

namespace Annotate

/-- A committed circle `(x, y, r)` in pixel space. -/
abbrev Circle := Int × Int × Int

/-- Linear-scan integer square root (structural, hence executable by the
kernel): `sqrtGo n fuel r` increments `r` while `(r+1)² ≤ n`. -/
def sqrtGo (n : Nat) : Nat → Nat → Nat
  | 0, r => r
  | fuel + 1, r => if (r + 1) * (r + 1) ≤ n then sqrtGo n fuel (r + 1) else r

/-- Executable integer square root, proved equal to `Nat.sqrt` below. -/
def natSqrt (n : Nat) : Nat := sqrtGo n n 0

/-- Rounded Euclidean norm: models `int(round(math.hypot(dx, dy)))` at
integer arguments under exact real arithmetic (lines 61 and 65-66 of
`annotate.py`).  Computed as `(natSqrt (4*n) + 1) / 2` with
`n = dx² + dy²`; proved below to equal `round (Real.sqrt n)`. -/
def roundHypot (dx dy : Int) : Int :=
  ((natSqrt (4 * (dx.natAbs ^ 2 + dy.natAbs ^ 2)) + 1) / 2 : Nat)

/-- Input events delivered to the interactive loop of `annotate_image`:
the mouse callbacks (`cv2.EVENT_LBUTTONDOWN`, `cv2.EVENT_MOUSEMOVE`)
and a key code returned by `waitKey(20) & 0xFF`. -/
inductive Event where
  | lbuttonDown (x y : Int)
  | mouseMove (x y : Int)
  | key (k : Nat)
deriving DecidableEq, Repr

/-- The mutable locals of `annotate_image` (lines 47-51), plus `done`
recording that the `while True` loop has been exited by `break`. -/
structure AnnState where
  saved : List Circle
  center : Int × Int
  drawing : Bool
  preview_radius : Int
  quit_all : Bool
  done : Bool
deriving DecidableEq, Repr

/-- The locals of `annotate_image` right after a successful decode. -/
def initState (initial : List Circle) : AnnState :=
  { saved := initial
    center := (-1, -1)
    drawing := false
    preview_radius := 0
    quit_all := false
    done := false }

/-- Effect of one delivered event: a mouse event runs `on_mouse`
(lines 53-66); a key event runs the key dispatch of the loop body
(lines 82-91).  Once the loop has been exited (`done`), further events
have no effect. -/
def step (s : AnnState) (e : Event) : AnnState :=
  if s.done then s else
  match e with
  | .lbuttonDown x y =>
      if s.drawing = false then
        { s with center := (x, y), preview_radius := 0, drawing := true }
      else
        { s with
            saved := s.saved ++
              [(s.center.1, s.center.2,
                roundHypot (x - s.center.1) (y - s.center.2))]
            drawing := false }
  | .mouseMove x y =>
      if s.drawing then
        { s with preview_radius := roundHypot (x - s.center.1) (y - s.center.2) }
      else s
  | .key k =>
      if k = 27 then
        if s.drawing then { s with drawing := false }
        else { s with quit_all := true, done := true }
      else if k = 117 ∧ s.saved ≠ [] then
        { s with saved := s.saved.dropLast }
      else if k = 32 then
        { s with done := true }
      else s

/-- Run the interactive loop over a list of delivered events. -/
def runEvents (s : AnnState) (evs : List Event) : AnnState :=
  evs.foldl step s

/-- `annotate_image(img_path, initial)` (lines 41-93).  The result of
`cv2.imread` is abstracted to the flag `decodes`; on decode failure the
function prints a message and returns `([], False)` without entering the
loop.  Otherwise it copies `initial` into `saved`, runs the loop over
the delivered events, and returns `(saved, quit_all)`. -/
def annotate_image (decodes : Bool) (initial : List Circle)
    (evs : List Event) : List Circle × Bool :=
  if decodes = false then ([], false)
  else
    let s := runEvents (initState initial) evs
    (s.saved, s.quit_all)

instance {ε α : Type _} [DecidableEq ε] [DecidableEq α] :
    DecidableEq (Except ε α) := fun a b =>
  match a, b with
  | .error e, .error f =>
      if h : e = f then isTrue (congrArg Except.error h)
      else isFalse (fun hh => h (Except.error.inj hh))
  | .error _, .ok _ => isFalse (fun hh => Except.noConfusion hh)
  | .ok _, .error _ => isFalse (fun hh => Except.noConfusion hh)
  | .ok a, .ok b =>
      if h : a = b then isTrue (congrArg Except.ok h)
      else isFalse (fun hh => h (Except.ok.inj hh))

/-- Python strings are modelled as lists of characters. -/
abbrev PyStr := List Char

/-- A file system mapping a path to the lines of the file stored there
(`none` = file absent). -/
abbrev FileSys := PyStr → Option (List PyStr)

/-- Python `str.strip()`: remove leading and trailing whitespace. -/
def pyStrip (s : PyStr) : PyStr :=
  ((s.dropWhile Char.isWhitespace).reverse.dropWhile Char.isWhitespace).reverse

/-- `line.replace(",", " ")` acts characterwise because the pattern is a
single character. -/
def commaToSpace (c : Char) : Char := if c = ',' then ' ' else c

/-- Worker for Python `str.split()` with no separator: `cur` is the
current token accumulated in reverse. -/
def splitWsGo : PyStr → PyStr → List PyStr
  | [], cur => if cur = [] then [] else [cur.reverse]
  | c :: cs, cur =>
      if c.isWhitespace then
        if cur = [] then splitWsGo cs [] else cur.reverse :: splitWsGo cs []
      else splitWsGo cs (c :: cur)

/-- Python `str.split()` with no separator: split on runs of whitespace,
producing no empty tokens. -/
def splitWs (s : PyStr) : List PyStr := splitWsGo s []

/-- Value of a list of decimal digit characters, most significant first. -/
def digitsVal (ds : PyStr) : Nat :=
  ds.foldl (fun n c => 10 * n + (c.toNat - 48)) 0

/-- Parse a nonempty all-digit token; otherwise `none`. -/
def digitsVal? (ds : PyStr) : Option Nat :=
  if ds ≠ [] ∧ ds.all Char.isDigit then some (digitsVal ds) else none

/-- Python `int(token)` on a whitespace-free token: an optional sign
followed by one or more decimal digits; anything else raises
`ValueError`, modelled as `none`.  (Python additionally tolerates
underscore digit grouping and non-ASCII digits; no theorem below
depends on such tokens.) -/
def pyInt? (t : PyStr) : Option Int :=
  match t with
  | [] => none
  | c :: ds =>
      if c = '-' then (digitsVal? ds).map (fun n => -(n : Int))
      else if c = '+' then (digitsVal? ds).map (fun n => (n : Int))
      else (digitsVal? (c :: ds)).map (fun n => (n : Int))

/-- Decimal digits of `n`, most significant first (fuel-based so that it
is structural; `natRepr` supplies sufficient fuel). -/
def natReprGo : Nat → Nat → PyStr
  | 0, _ => []
  | fuel + 1, n =>
      if n < 10 then [Char.ofNat (48 + n)]
      else natReprGo fuel (n / 10) ++ [Char.ofNat (48 + n % 10)]

/-- Python `str(n)` for a natural number. -/
def natRepr (n : Nat) : PyStr := natReprGo (n + 1) n

/-- Python `str(i)` / f-string formatting of an integer: a minus sign for
negatives followed by decimal digits, no padding. -/
def intRepr (i : Int) : PyStr :=
  if i < 0 then '-' :: natRepr i.natAbs else natRepr i.toNat

/-- The line `f"{x},{y},{r}"` written for one circle (line 38). -/
def circleLine (c : Circle) : PyStr :=
  intRepr c.1 ++ ',' :: intRepr c.2.1 ++ ',' :: intRepr c.2.2

/-- One iteration of the reading loop of `read_csv` (lines 26-31):
strip the line, turn commas into spaces, split on whitespace; skip the
line unless exactly three tokens result; `int` each token, an uncaught
`ValueError` being modelled as `Except.error ()`. -/
def readLine (line : PyStr) : Except Unit (Option Circle) :=
  let parts := splitWs ((pyStrip line).map commaToSpace)
  match parts with
  | [a, b, c] =>
      match pyInt? a, pyInt? b, pyInt? c with
      | some x, some y, some r => .ok (some (x, y, r))
      | _, _, _ => .error ()
  | _ => .ok none

/-- The reading loop of `read_csv` over the lines of a present file:
parsed triples are appended in order; a `ValueError` aborts the whole
call. -/
def read_csv_lines : List PyStr → Except Unit (List Circle)
  | [] => .ok []
  | line :: rest => do
      match ← readLine line with
      | some c => (read_csv_lines rest).map (fun cs => c :: cs)
      | none => read_csv_lines rest

/-- `read_csv(path)` (lines 21-32): an absent file yields `[]`, a
present file is read line by line. -/
def read_csv (fs : FileSys) (path : PyStr) : Except Unit (List Circle) :=
  match fs path with
  | none => .ok []
  | some lines => read_csv_lines lines

/-- `write_csv(path, circles)` (lines 35-38): overwrite `path` with one
`x,y,r` line per circle in store order; an empty store writes an empty
(zero-line) file. -/
def write_csv (fs : FileSys) (path : PyStr) (circles : List Circle) : FileSys :=
  fun p => if p = path then some (circles.map circleLine) else fs p

/-- Lexicographic comparison of strings by code point, Python's `<=` on
`str`. -/
def strLe : PyStr → PyStr → Bool
  | [], _ => true
  | _ :: _, [] => false
  | a :: as, b :: bs => if a < b then true else if b < a then false else strLe as bs

/-- Insert into a sorted list, used to model Python `sorted`. -/
def insertLe (x : PyStr) : List PyStr → List PyStr
  | [] => [x]
  | y :: ys => if strLe x y then x :: y :: ys else y :: insertLe x ys

/-- Python `sorted` on strings: lexicographic by code point.  Insertion
sort produces the same list because the order is total and
antisymmetric. -/
def pySort (l : List PyStr) : List PyStr := l.foldr insertLe []

/-- `os.path.splitext` on a bare file name (no directory separators):
split off the extension at the last dot, except that leading dots never
start an extension. -/
def splitext (s : PyStr) : PyStr × PyStr :=
  let rest := s.dropWhile (· == '.')
  if rest.contains '.' then
    let ext := '.' :: (rest.reverse.takeWhile (· != '.')).reverse
    (s.take (s.length - ext.length), ext)
  else (s, [])

/-- `os.path.join(a, b)`, for the forms used by the program. -/
def pathJoin (a b : PyStr) : PyStr :=
  if b.head? = some '/' then b
  else if a = [] then b
  else if a.getLast? = some '/' then a ++ b
  else a ++ '/' :: b

/-- `list_images(folder)` (lines 12-18) over the folder's directory
listing: keep the names whose lowercased extension is `.jpg`, `.jpeg`
or `.png`, sorted lexicographically. -/
def list_images (files : List PyStr) : List PyStr :=
  let exts : List PyStr := [".jpg".toList, ".jpeg".toList, ".png".toList]
  pySort (files.filter (fun name => exts.contains (splitext (name.map Char.toLower)).2))

/-- `DATASET_DIR_DEFAULT` (line 8). -/
def DATASET_DIR_DEFAULT : PyStr := "../dataset3".toList

/-- The `while i < len(argv)` loop of `parse_args` (lines 112-127).
A recognised flag missing its value, like any unknown argument, prints
a warning and turns on help. -/
def parse_argsGo : PyStr → Option PyStr → Bool → List PyStr → PyStr × Option PyStr × Bool
  | dataset, single, show_help, [] => (dataset, single, show_help)
  | dataset, single, show_help, arg :: rest =>
      if arg = "-h".toList ∨ arg = "--help".toList then
        parse_argsGo dataset single true rest
      else if arg = "--dataset".toList then
        match rest with
        | v :: rest2 => parse_argsGo v single show_help rest2
        | [] => parse_argsGo dataset single true []
      else if arg = "--single".toList then
        match rest with
        | v :: rest2 => parse_argsGo dataset (some v) show_help rest2
        | [] => parse_argsGo dataset single true []
      else parse_argsGo dataset single true rest

/-- `parse_args(argv)` (lines 108-128): returns `(dataset, single, show_help)`. -/
def parse_args (argv : List PyStr) : PyStr × Option PyStr × Bool :=
  parse_argsGo DATASET_DIR_DEFAULT none false argv

/-- Python truthiness of the `target` value: `None` and the empty
string are falsy. -/
def pyTruthy : Option PyStr → Bool
  | some (_ :: _) => true
  | _ => false

/-- The string held by `target`, defaulting to the empty string. -/
def targetStr : Option PyStr → PyStr
  | some s => s
  | none => []

/-- Which message path `main` took before returning (all of them return
normally, exit code 0). -/
inductive Outcome where
  | help
  | noDataset
  | noImages
  | notFound
  | finished
deriving DecidableEq, Repr

/-- The annotation file path built on lines 153-154:
`os.path.join(dataset_dir, f"{stem}.csv")`. -/
def csvPath (dataset_dir img_name : PyStr) : PyStr :=
  pathJoin dataset_dir ((splitext img_name).1 ++ ".csv".toList)

/-- `annotate_and_save(img_name)` (lines 152-163): read the existing
CSV, run the annotation loop, then write the resulting circles back
unconditionally.  `decodes` tells whether `cv2.imread` succeeds on a
given image path; `events` gives the interactive events delivered while
a given image is open. -/
def annotate_and_save (dataset_dir : PyStr) (decodes : PyStr → Bool)
    (events : PyStr → List Event) (fs : FileSys) (img_name : PyStr) :
    Except Unit (FileSys × Bool) := do
  let csv_path := csvPath dataset_dir img_name
  let existing ← read_csv fs csv_path
  let res := annotate_image (decodes (pathJoin dataset_dir img_name)) existing
    (events img_name)
  .ok (write_csv fs csv_path res.1, res.2)

/-- The `for name in images` loop of `main` (lines 170-173): process
images in order, stopping right after the first `quit_all`. -/
def run_all (dataset_dir : PyStr) (decodes : PyStr → Bool)
    (events : PyStr → List Event) :
    FileSys → List PyStr → Except Unit (Outcome × FileSys)
  | fs, [] => .ok (.finished, fs)
  | fs, name :: rest => do
      let (fs2, quit_all) ← annotate_and_save dataset_dir decodes events fs name
      if quit_all then .ok (.finished, fs2)
      else run_all dataset_dir decodes events fs2 rest

/-- `main()` (lines 131-175).  `isdir` and `listdir` abstract the
queried file-system directory structure, `fs` the CSV files.  The
result records which message/return path was taken and the final state
of the CSV files; `Except.error` is an uncaught exception. -/
def main (argv : List PyStr) (isdir : PyStr → Bool) (listdir : PyStr → List PyStr)
    (decodes : PyStr → Bool) (events : PyStr → List Event) (fs : FileSys) :
    Except Unit (Outcome × FileSys) :=
  let (dataset_dir, target, want_help) := parse_args argv
  if want_help then .ok (.help, fs)
  else if isdir dataset_dir = false then .ok (.noDataset, fs)
  else
    let images := list_images (listdir dataset_dir)
    if images = [] then .ok (.noImages, fs)
    else if pyTruthy target ∧ targetStr target ∉ images then .ok (.notFound, fs)
    else if pyTruthy target then do
      let (fs2, _) ← annotate_and_save dataset_dir decodes events fs (targetStr target)
      .ok (.finished, fs2)
    else run_all dataset_dir decodes events fs images

/-- The event sequence of one full commit: a press fixing the center
followed by a press confirming the radius. -/
def commitPair (pq : (Int × Int) × (Int × Int)) : List Event :=
  [Event.lbuttonDown pq.1.1 pq.1.2, Event.lbuttonDown pq.2.1 pq.2.2]

/-- The events of a sequence of commits. -/
def commitEvents (ps : List ((Int × Int) × (Int × Int))) : List Event :=
  (ps.map commitPair).flatten

/-- The circle a commit produces: the fixed center and the rounded
distance to the confirming press. -/
def circleOf (pq : (Int × Int) × (Int × Int)) : Circle :=
  (pq.1.1, pq.1.2, roundHypot (pq.2.1 - pq.1.1) (pq.2.2 - pq.1.2))

/-!
Heap-level model of `annotate_image`, used to state what the function
does to the caller's `initial` list object.  A Python heap of list
objects is a `List (List Circle)` indexed by object identity; the local
`saved` is a reference to the cell at index `savedId`.  Line 47
(`saved = list(initial)`) allocates a fresh cell holding a copy of the
cell referenced by `initId`; every later `append` and `pop` targets the
`savedId` cell.
-/

/-- The locals of `annotate_image` with the circle store held by
reference into a heap of list objects. -/
structure HeapState where
  cells : List (List Circle)
  savedId : Nat
  center : Int × Int
  drawing : Bool
  preview_radius : Int
  quit_all : Bool
  done : Bool
deriving DecidableEq, Repr

/-- The current value of the list object referenced by `saved`. -/
def HeapState.saved (s : HeapState) : List Circle := s.cells.getD s.savedId []

/-- `step`, with `saved.append(...)` and `saved.pop()` performed as
in-place mutation of the `savedId` cell. -/
def heapStep (s : HeapState) (e : Event) : HeapState :=
  if s.done then s else
  match e with
  | .lbuttonDown x y =>
      if s.drawing = false then
        { s with center := (x, y), preview_radius := 0, drawing := true }
      else
        { s with
            cells := s.cells.set s.savedId (s.saved ++
              [(s.center.1, s.center.2,
                roundHypot (x - s.center.1) (y - s.center.2))])
            drawing := false }
  | .mouseMove x y =>
      if s.drawing then
        { s with preview_radius := roundHypot (x - s.center.1) (y - s.center.2) }
      else s
  | .key k =>
      if k = 27 then
        if s.drawing then { s with drawing := false }
        else { s with quit_all := true, done := true }
      else if k = 117 ∧ s.saved ≠ [] then
        { s with cells := s.cells.set s.savedId s.saved.dropLast }
      else if k = 32 then
        { s with done := true }
      else s

/-- `annotate_image` at heap level: the caller's `initial` list lives in
the cell `initId`; on a successful decode line 47 allocates the fresh
cell `cells.length` with a copy of its contents and the loop runs on
that cell.  On decode failure the returned `[]` is likewise a fresh
empty list object and the loop never runs. -/
def annotate_image_heap (decodes : Bool) (cells : List (List Circle))
    (initId : Nat) (evs : List Event) : HeapState :=
  if decodes = false then
    { cells := cells ++ [[]], savedId := cells.length, center := (-1, -1),
      drawing := false, preview_radius := 0, quit_all := false, done := true }
  else
    evs.foldl heapStep
      { cells := cells ++ [cells.getD initId []], savedId := cells.length,
        center := (-1, -1), drawing := false, preview_radius := 0,
        quit_all := false, done := false }

theorem sqrtGo_eq (n : Nat) :
    ∀ fuel r, r * r ≤ n → Nat.sqrt n < r + fuel + 1 → sqrtGo n fuel r = Nat.sqrt n := by
  intro fuel
  induction fuel with
  | zero =>
      intro r h1 h2
      have hr : r ≤ Nat.sqrt n := Nat.le_sqrt.mpr h1
      have : Nat.sqrt n ≤ r := by omega
      simp [sqrtGo]
      omega
  | succ fuel ih =>
      intro r h1 h2
      by_cases h : (r + 1) * (r + 1) ≤ n
      · rw [sqrtGo, if_pos h]
        exact ih (r + 1) h (by omega)
      · rw [sqrtGo, if_neg h]
        have hlt : Nat.sqrt n < r + 1 := Nat.sqrt_lt.mpr (by omega)
        have hr : r ≤ Nat.sqrt n := Nat.le_sqrt.mpr h1
        omega

theorem natSqrt_eq (n : Nat) : natSqrt n = Nat.sqrt n := by
  have := sqrtGo_eq n n 0 (by omega) (by have := Nat.sqrt_le_self n; omega)
  simpa [natSqrt] using this

theorem step_of_done (s : AnnState) (e : Event) (h : s.done = true) : step s e = s := by
  simp [step, h]

theorem step_key32 (s : AnnState) (h : s.done = false) :
    step s (Event.key 32) = { s with done := true } := by
  simp [step, h]

theorem step_key117 (s : AnnState) (h : s.done = false) (hs : s.saved ≠ []) :
    step s (Event.key 117) = { s with saved := s.saved.dropLast } := by
  simp [step, h, hs]

theorem step_key117_empty (s : AnnState) (hs : s.saved = []) :
    step s (Event.key 117) = s := by
  by_cases h : s.done = true
  · simp [step, h]
  · replace h : s.done = false := by simpa using h
    simp [step, h, hs]

theorem step_commit (s : AnnState) (x y : Int) (h : s.done = false)
    (hdr : s.drawing = true) :
    step s (Event.lbuttonDown x y) =
      { s with
          saved := s.saved ++
            [(s.center.1, s.center.2, roundHypot (x - s.center.1) (y - s.center.2))]
          drawing := false } := by
  simp [step, h, hdr]

theorem step_cancel_drawing (s : AnnState) (h : s.done = false)
    (hdr : s.drawing = true) :
    step s (Event.key 27) = { s with drawing := false } := by
  simp [step, h, hdr]

/-- Characterization of when one event sets `quit_all`: only the cancel
key received while the loop is live and no circle is in progress. -/
theorem step_quit_iff (s : AnnState) (e : Event) :
    (step s e).quit_all = true ↔
      s.quit_all = true ∨ (s.done = false ∧ s.drawing = false ∧ e = Event.key 27) := by
  by_cases hd : s.done = true
  · simp [step, hd]
  · replace hd : s.done = false := by simpa using hd
    cases e with
    | lbuttonDown x y => cases hdr : s.drawing <;> simp [step, hd, hdr]
    | mouseMove x y => cases hdr : s.drawing <;> simp [step, hd, hdr]
    | key k =>
        by_cases h27 : k = 27
        · subst h27
          cases hdr : s.drawing <;> simp [step, hd, hdr]
        · simp [step, hd, h27]
          split_ifs <;> simp

theorem runEvents_nil (s : AnnState) : runEvents s [] = s := rfl

theorem runEvents_cons (s : AnnState) (e : Event) (evs : List Event) :
    runEvents s (e :: evs) = runEvents (step s e) evs := rfl

theorem runEvents_append (s : AnnState) (l1 l2 : List Event) :
    runEvents s (l1 ++ l2) = runEvents (runEvents s l1) l2 := by
  simp [runEvents, List.foldl_append]

/-- `quit_all` after a run holds exactly when some delivered event was
the cancel key received while the loop was live and Idle. -/
theorem runEvents_quit_iff (evs : List Event) : ∀ s : AnnState,
    (runEvents s evs).quit_all = true ↔
      s.quit_all = true ∨ ∃ i, i < evs.length ∧
        (runEvents s (evs.take i)).done = false ∧
        (runEvents s (evs.take i)).drawing = false ∧
        evs[i]? = some (Event.key 27) := by
  induction evs with
  | nil => intro s; simp [runEvents]
  | cons e evs ih =>
      intro s
      rw [runEvents_cons, ih (step s e), step_quit_iff]
      constructor
      · rintro ((hq | ⟨hd, hdr, he⟩) | ⟨i, hi, h2, h3, h4⟩)
        · exact Or.inl hq
        · refine Or.inr ⟨0, by simp, ?_, ?_, ?_⟩
          · simpa [runEvents_nil] using hd
          · simpa [runEvents_nil] using hdr
          · simp [he]
        · refine Or.inr ⟨i + 1, by simpa using hi, ?_, ?_, ?_⟩
          · simpa [List.take_succ_cons, runEvents_cons] using h2
          · simpa [List.take_succ_cons, runEvents_cons] using h3
          · simpa using h4
      · rintro (hq | ⟨i, hi, h2, h3, h4⟩)
        · exact Or.inl (Or.inl hq)
        · cases i with
          | zero =>
              refine Or.inl (Or.inr ⟨?_, ?_, ?_⟩)
              · simpa [runEvents_nil] using h2
              · simpa [runEvents_nil] using h3
              · simpa using h4
          | succ j =>
              refine Or.inr ⟨j, by simpa using hi, ?_, ?_, ?_⟩
              · simpa [List.take_succ_cons, runEvents_cons] using h2
              · simpa [List.take_succ_cons, runEvents_cons] using h3
              · simpa using h4

/-- Running the two presses of a sequence of commits from a live Idle
state appends exactly the committed circles, in commit order, and
returns to a live Idle state. -/
theorem runEvents_commits (ps : List ((Int × Int) × (Int × Int))) :
    ∀ s : AnnState, s.done = false → s.drawing = false →
      (runEvents s (commitEvents ps)).saved = s.saved ++ ps.map circleOf ∧
      (runEvents s (commitEvents ps)).done = false ∧
      (runEvents s (commitEvents ps)).drawing = false ∧
      (runEvents s (commitEvents ps)).quit_all = s.quit_all := by
  induction ps with
  | nil => intro s h1 h2; simp [commitEvents, runEvents, h1, h2]
  | cons pq ps ih =>
      intro s h1 h2
      have hce : commitEvents (pq :: ps) = commitPair pq ++ commitEvents ps := by
        simp [commitEvents, commitPair]
      have hs1 : runEvents s (commitPair pq) =
          { s with saved := s.saved ++ [circleOf pq],
                   center := (pq.1.1, pq.1.2), preview_radius := 0,
                   drawing := false } := by
        show step (step s (Event.lbuttonDown pq.1.1 pq.1.2))
            (Event.lbuttonDown pq.2.1 pq.2.2) = _
        simp [step, h1, h2, circleOf]
      rw [hce, runEvents_append, hs1]
      obtain ⟨a, b, c, d⟩ :=
        ih { s with saved := s.saved ++ [circleOf pq],
                    center := (pq.1.1, pq.1.2), preview_radius := 0,
                    drawing := false } h1 rfl
      refine ⟨?_, b, c, by simpa using d⟩
      simpa [List.append_assoc] using a

/-- `(Nat.sqrt (4n) + 1) / 2` is the correctly rounded square root. -/
theorem nat_round_sqrt_eq (n : ℕ) :
    (((Nat.sqrt (4 * n) + 1) / 2 : ℕ) : ℤ) = round (Real.sqrt (n : ℝ)) := by
  set s := Nat.sqrt (4 * n) with hsdef
  have hs1 : s ^ 2 ≤ 4 * n := Nat.sqrt_le' (4 * n)
  have hs2 : 4 * n < (s + 1) ^ 2 := Nat.lt_succ_sqrt' (4 * n)
  have hsq4 : Real.sqrt ((4 * n : ℕ) : ℝ) = 2 * Real.sqrt (n : ℝ) := by
    push_cast
    rw [show ((4 : ℝ) * n) = 2 ^ 2 * (n : ℝ) by ring,
      Real.sqrt_mul (by positivity) (n : ℝ), Real.sqrt_sq (by norm_num)]
  have hle : (s : ℝ) ≤ 2 * Real.sqrt (n : ℝ) := by
    rw [← hsq4, Real.le_sqrt (by positivity) (by positivity)]
    have := (Nat.cast_le (α := ℝ)).mpr hs1
    push_cast at this ⊢
    nlinarith [this]
  have hlt : 2 * Real.sqrt (n : ℝ) < (s : ℝ) + 1 := by
    rw [← hsq4, Real.sqrt_lt' (by positivity)]
    have := (Nat.cast_lt (α := ℝ)).mpr hs2
    push_cast at this ⊢
    nlinarith [this]
  rw [round_eq]
  symm
  rw [Int.floor_eq_iff]
  rcases Nat.even_or_odd s with ⟨m, hm⟩ | ⟨m, hm⟩
  · have hk : (s + 1) / 2 = m := by omega
    rw [hm] at hle hlt
    push_cast at hle hlt
    constructor
    · push_cast [hk]
      linarith
    · push_cast [hk]
      linarith
  · have hk : (s + 1) / 2 = m + 1 := by omega
    rw [hm] at hle hlt
    push_cast at hle hlt
    constructor
    · push_cast [hk]
      linarith
    · push_cast [hk]
      linarith

/-- The committed radius formula is exactly `round(hypot(dx, dy))`. -/
theorem roundHypot_eq_round_sqrt (dx dy : Int) :
    roundHypot dx dy = round (Real.sqrt ((dx : ℝ) ^ 2 + (dy : ℝ) ^ 2)) := by
  have hcast : ((dx.natAbs ^ 2 + dy.natAbs ^ 2 : ℕ) : ℝ) = (dx : ℝ) ^ 2 + (dy : ℝ) ^ 2 := by
    push_cast [Int.cast_natAbs]
    simp [sq_abs]
  unfold roundHypot
  rw [natSqrt_eq, ← hcast]
  exact nat_round_sqrt_eq _

theorem roundHypot_nonneg (dx dy : Int) : 0 ≤ roundHypot dx dy :=
  Int.natCast_nonneg _

/-- C3, counterexample: the finish key (space) received while Drawing is
NOT a no-op — after pressing at (0,0) and then space, the loop has been
exited (`done = true`) and `annotate_image` returns, so the session
terminates and the in-progress circle does not persist. -/
theorem finish_while_drawing_terminates_cx :
    (runEvents (initState []) [Event.lbuttonDown 0 0, Event.key 32]).done = true ∧
    annotate_image true [] [Event.lbuttonDown 0 0, Event.key 32] = ([], false) := by
  constructor
  · decide
  · decide

/-- C3, amended: receiving the finish key while Drawing terminates the
loop immediately (`break` at line 91 has no drawing guard): `done`
becomes true and every other local — including the committed store and
`quit_all = false` — is left as it was; the in-progress circle is
discarded, never committed. -/
theorem finish_while_drawing_breaks (s : AnnState) (h : s.done = false)
    (hdr : s.drawing = true) :
    step s (Event.key 32) = { s with done := true } :=
  step_key32 s h

theorem finish_while_drawing_breaks_witness :
    step { saved := [(1, 2, 3)], center := (5, 6), drawing := true,
           preview_radius := 4, quit_all := false, done := false } (Event.key 32) =
      { saved := [(1, 2, 3)], center := (5, 6), drawing := true,
        preview_radius := 4, quit_all := false, done := true } :=
  finish_while_drawing_breaks _ rfl rfl

/-- C9: the undo key is dispatched with no guard on the drawing flag
(line 88), so while Drawing it still removes the last committed circle
from a non-empty store, and the in-progress center, drawing flag and
live radius are untouched. -/
theorem undo_works_while_drawing (s : AnnState) (h : s.done = false)
    (hdr : s.drawing = true) (hs : s.saved ≠ []) :
    step s (Event.key 117) = { s with saved := s.saved.dropLast } :=
  step_key117 s h hs

theorem undo_works_while_drawing_witness :
    step { saved := [(1, 2, 3), (4, 5, 6)], center := (9, 9), drawing := true,
           preview_radius := 7, quit_all := false, done := false } (Event.key 117) =
      { saved := [(1, 2, 3)], center := (9, 9), drawing := true,
        preview_radius := 7, quit_all := false, done := false } :=
  undo_works_while_drawing _ rfl rfl (by decide)

/-- C6: a confirming press while Drawing commits exactly
`(center, round(hypot(dx, dy)))` where `(dx, dy)` is the offset from
the fixed center to the press; `roundHypot` is the true rounded
Euclidean norm, is nonnegative for all integer offsets, and is zero
when the confirm point equals the center. -/
theorem commit_radius_round_hypot :
    (∀ (s : AnnState) (x y : Int), s.done = false → s.drawing = true →
      step s (Event.lbuttonDown x y) =
        { s with
            saved := s.saved ++
              [(s.center.1, s.center.2,
                roundHypot (x - s.center.1) (y - s.center.2))]
            drawing := false })
  ∧ (∀ dx dy : Int,
      roundHypot dx dy = round (Real.sqrt ((dx : ℝ) ^ 2 + (dy : ℝ) ^ 2))
      ∧ 0 ≤ roundHypot dx dy)
  ∧ roundHypot 0 0 = 0 := by
  refine ⟨fun s x y h hdr => step_commit s x y h hdr,
    fun dx dy => ⟨roundHypot_eq_round_sqrt dx dy, roundHypot_nonneg dx dy⟩, by decide⟩

theorem commit_radius_round_hypot_witness :
    (step { saved := [], center := (10, 20), drawing := true, preview_radius := 0,
            quit_all := false, done := false } (Event.lbuttonDown 13 24)).saved =
      [(10, 20, 5)]
    ∧ roundHypot 3 4 = round (Real.sqrt ((3 : ℝ) ^ 2 + (4 : ℝ) ^ 2))
    ∧ 0 ≤ roundHypot 3 4 := by
  refine ⟨?_, (commit_radius_round_hypot.2.1 3 4).1, (commit_radius_round_hypot.2.1 3 4).2⟩
  rw [commit_radius_round_hypot.1 _ 13 24 rfl rfl]
  decide

/-- C5: a run of N commits followed by one undo leaves exactly the
store produced by the first N-1 commits; the undo key on an empty store
changes nothing at all (and raises nothing). -/
theorem undo_reverts_last_commit :
    (∀ (initial : List Circle) (ps : List ((Int × Int) × (Int × Int)))
       (pq : (Int × Int) × (Int × Int)),
      (annotate_image true initial (commitEvents (ps ++ [pq]) ++ [Event.key 117])).1
        = (annotate_image true initial (commitEvents ps)).1)
  ∧ runEvents (initState []) [Event.key 117] = initState []
  ∧ annotate_image true [] [Event.key 117] = ([], false) := by
  refine ⟨?_, by decide, by decide⟩
  intro initial ps pq
  obtain ⟨a2, b2, c2, d2⟩ := runEvents_commits (ps ++ [pq]) (initState initial) rfl rfl
  obtain ⟨a3, _, _, _⟩ := runEvents_commits ps (initState initial) rfl rfl
  show (runEvents (initState initial) _).saved = (runEvents (initState initial) _).saved
  rw [runEvents_append]
  have hne : (runEvents (initState initial) (commitEvents (ps ++ [pq]))).saved ≠ [] := by
    rw [a2]
    simp
  rw [show runEvents (runEvents (initState initial) (commitEvents (ps ++ [pq])))
        [Event.key 117]
      = step (runEvents (initState initial) (commitEvents (ps ++ [pq])))
        (Event.key 117) from rfl,
    step_key117 _ b2 hne]
  show (runEvents (initState initial) (commitEvents (ps ++ [pq]))).saved.dropLast = _
  rw [a2, a3]
  simp [List.map_append, ← List.append_assoc, List.dropLast_concat]

/-- C4: `annotate_image` reports `quit_all = true` exactly when some
delivered event was the cancel key (ESC) received while the loop was
live and Idle; ESC received mid-draw merely discards the in-progress
circle; and the driver writes the returned circles to the CSV before
`quit_all` is acted on, so a quitting image's circles are persisted
before iteration stops. -/
theorem quit_all_iff_cancel_while_idle :
    (∀ (initial : List Circle) (evs : List Event),
      (annotate_image true initial evs).2 = true ↔
        ∃ i, i < evs.length ∧
          (runEvents (initState initial) (evs.take i)).done = false ∧
          (runEvents (initState initial) (evs.take i)).drawing = false ∧
          evs[i]? = some (Event.key 27))
  ∧ (∀ (s : AnnState), s.done = false → s.drawing = true →
      step s (Event.key 27) = { s with drawing := false })
  ∧ (∀ (dataset_dir : PyStr) (decodes : PyStr → Bool) (events : PyStr → List Event)
       (fs : FileSys) (img : PyStr) (existing : List Circle),
      read_csv fs (csvPath dataset_dir img) = .ok existing →
      annotate_and_save dataset_dir decodes events fs img =
        .ok (write_csv fs (csvPath dataset_dir img)
               (annotate_image (decodes (pathJoin dataset_dir img)) existing
                 (events img)).1,
             (annotate_image (decodes (pathJoin dataset_dir img)) existing
               (events img)).2))
  ∧ (∀ (dataset_dir : PyStr) (decodes : PyStr → Bool) (events : PyStr → List Event)
       (fs : FileSys) (img : PyStr) (fs2 : FileSys) (rest : List PyStr),
      annotate_and_save dataset_dir decodes events fs img = .ok (fs2, true) →
      run_all dataset_dir decodes events fs (img :: rest) = .ok (.finished, fs2)) := by
  refine ⟨?_, fun s h hdr => step_cancel_drawing s h hdr, ?_, ?_⟩
  · intro initial evs
    show (runEvents (initState initial) evs).quit_all = true ↔ _
    rw [runEvents_quit_iff evs (initState initial)]
    simp [initState]
  · intro dataset_dir decodes events fs img existing hread
    simp [annotate_and_save, hread, Bind.bind, Except.bind]
  · intro dataset_dir decodes events fs img fs2 rest h
    simp [run_all, h, Bind.bind, Except.bind]

theorem quit_all_iff_cancel_while_idle_witness :
    step { saved := [], center := (0, 0), drawing := true, preview_radius := 0,
           quit_all := false, done := false } (Event.key 27) =
      { saved := [], center := (0, 0), drawing := false, preview_radius := 0,
        quit_all := false, done := false }
  ∧ annotate_and_save ("d".toList) (fun _ => true) (fun _ => [Event.key 27])
      (fun _ => none) ("a.png".toList) =
      .ok (write_csv (fun _ => none) (csvPath ("d".toList) ("a.png".toList))
             (annotate_image true [] [Event.key 27]).1,
           (annotate_image true [] [Event.key 27]).2)
  ∧ run_all ("d".toList) (fun _ => true) (fun _ => [Event.key 27]) (fun _ => none)
      ["a.png".toList] =
      .ok (.finished,
           write_csv (fun _ => none) (csvPath ("d".toList) ("a.png".toList))
             (annotate_image true [] [Event.key 27]).1) := by
  refine ⟨quit_all_iff_cancel_while_idle.2.1 _ rfl rfl, ?_, ?_⟩
  · exact quit_all_iff_cancel_while_idle.2.2.1 ("d".toList) (fun _ => true)
      (fun _ => [Event.key 27]) (fun _ => none) ("a.png".toList) [] rfl
  · exact quit_all_iff_cancel_while_idle.2.2.2 ("d".toList) (fun _ => true)
      (fun _ => [Event.key 27]) (fun _ => none) ("a.png".toList) _ [] rfl

theorem isDigit_not_whitespace {c : Char} (h : c.isDigit = true) :
    c.isWhitespace = false := by
  cases hw : c.isWhitespace
  · rfl
  · exfalso
    have hh : ((c = ' ' ∨ c = '\t') ∨ c = '\r') ∨ c = '\n' := by
      simpa [Char.isWhitespace, Bool.or_eq_true, decide_eq_true_eq] using hw
    rcases hh with ((rfl | rfl) | rfl) | rfl <;> exact absurd h (by decide)

theorem isDigit_ne_minus {c : Char} (h : c.isDigit = true) : ¬ c = '-' := by
  intro hc
  subst hc
  exact absurd h (by decide)

theorem isDigit_ne_plus {c : Char} (h : c.isDigit = true) : ¬ c = '+' := by
  intro hc
  subst hc
  exact absurd h (by decide)

theorem isDigit_ne_comma {c : Char} (h : c.isDigit = true) : c ≠ ',' := by
  intro hc
  subst hc
  exact absurd h (by decide)

theorem digitsVal_append (l : PyStr) (c : Char) :
    digitsVal (l ++ [c]) = 10 * digitsVal l + (c.toNat - 48) := by
  simp [digitsVal, List.foldl_append]

theorem digitChar_spec (d : Nat) (hd : d < 10) :
    (Char.ofNat (48 + d)).toNat = 48 + d ∧ (Char.ofNat (48 + d)).isDigit = true := by
  interval_cases d <;> exact ⟨by decide, by decide⟩

theorem natReprGo_spec : ∀ fuel n, n < fuel →
    natReprGo fuel n ≠ [] ∧ (∀ c ∈ natReprGo fuel n, c.isDigit = true) ∧
    digitsVal (natReprGo fuel n) = n := by
  intro fuel
  induction fuel with
  | zero => intro n h; omega
  | succ fuel ih =>
      intro n h
      by_cases h10 : n < 10
      · refine ⟨by simp [natReprGo, h10], ?_, ?_⟩
        · intro c hc
          simp [natReprGo, h10] at hc
          subst hc
          exact (digitChar_spec n h10).2
        · simp [natReprGo, h10, digitsVal, (digitChar_spec n h10).1]
      · have hn1 : n / 10 < fuel := by
          have := Nat.div_lt_self (show 0 < n by omega) (show 1 < 10 by omega)
          omega
        obtain ⟨hne, hdig, hval⟩ := ih (n / 10) hn1
        have hd10 : n % 10 < 10 := Nat.mod_lt n (by omega)
        refine ⟨by simp [natReprGo, h10], ?_, ?_⟩
        · intro c hc
          simp [natReprGo, h10] at hc
          rcases hc with hc | hc
          · exact hdig c hc
          · subst hc
            exact (digitChar_spec (n % 10) hd10).2
        · rw [show natReprGo (fuel + 1) n
              = natReprGo fuel (n / 10) ++ [Char.ofNat (48 + n % 10)] from by
                simp [natReprGo, h10],
            digitsVal_append, hval, (digitChar_spec (n % 10) hd10).1]
          omega

theorem natRepr_spec (n : Nat) :
    natRepr n ≠ [] ∧ (∀ c ∈ natRepr n, c.isDigit = true) ∧
    digitsVal (natRepr n) = n :=
  natReprGo_spec (n + 1) n (by omega)

theorem digitsVal?_natRepr (n : Nat) : digitsVal? (natRepr n) = some n := by
  obtain ⟨h1, h2, h3⟩ := natRepr_spec n
  rw [digitsVal?, if_pos ⟨h1, by simpa [List.all_eq_true] using h2⟩, h3]

theorem intRepr_chars (i : Int) :
    ∀ c ∈ intRepr i, c.isWhitespace = false ∧ c ≠ ',' := by
  intro c hc
  unfold intRepr at hc
  split at hc
  · rcases List.mem_cons.mp hc with rfl | hc
    · exact ⟨by decide, by decide⟩
    · have hd := (natRepr_spec _).2.1 c hc
      exact ⟨isDigit_not_whitespace hd, isDigit_ne_comma hd⟩
  · have hd := (natRepr_spec _).2.1 c hc
    exact ⟨isDigit_not_whitespace hd, isDigit_ne_comma hd⟩

theorem intRepr_ne_nil (i : Int) : intRepr i ≠ [] := by
  unfold intRepr
  split
  · simp
  · exact (natRepr_spec _).1

theorem pyInt?_intRepr (i : Int) : pyInt? (intRepr i) = some i := by
  by_cases hi : i < 0
  · rw [intRepr, if_pos hi]
    have hstep : pyInt? ('-' :: natRepr i.natAbs)
        = (digitsVal? (natRepr i.natAbs)).map (fun n => -(n : Int)) := by
      simp [pyInt?]
    rw [hstep, digitsVal?_natRepr]
    show some (-(i.natAbs : ℤ)) = some i
    congr 1
    omega
  · rw [intRepr, if_neg hi]
    obtain ⟨h1, h2, _⟩ := natRepr_spec i.toNat
    rcases hrepr : natRepr i.toNat with _ | ⟨c, ds⟩
    · exact absurd hrepr h1
    · have hcd : c.isDigit = true := h2 c (by rw [hrepr]; simp)
      rw [pyInt?, if_neg (isDigit_ne_minus hcd), if_neg (isDigit_ne_plus hcd),
        ← hrepr, digitsVal?_natRepr]
      show some ((i.toNat : ℤ)) = some i
      congr 1
      omega

theorem splitWsGo_token : ∀ (t r cur : PyStr), (∀ c ∈ t, c.isWhitespace = false) →
    splitWsGo (t ++ r) cur = splitWsGo r (t.reverse ++ cur) := by
  intro t
  induction t with
  | nil => intro r cur ht; simp
  | cons c t ih =>
      intro r cur ht
      have hc : c.isWhitespace = false := ht c (by simp)
      rw [List.cons_append, show splitWsGo (c :: (t ++ r)) cur = splitWsGo (t ++ r) (c :: cur)
          from by simp [splitWsGo, hc],
        ih r (c :: cur) (fun x hx => ht x (by simp [hx]))]
      simp

theorem splitWs_single (t : PyStr) (hne : t ≠ [])
    (ht : ∀ c ∈ t, c.isWhitespace = false) : splitWs t = [t] := by
  have h := splitWsGo_token t [] [] ht
  rw [List.append_nil] at h
  unfold splitWs
  rw [h]
  simp [splitWsGo, hne]

theorem splitWs_token_sep (t rest : PyStr) (hne : t ≠ [])
    (ht : ∀ c ∈ t, c.isWhitespace = false) :
    splitWs (t ++ ' ' :: rest) = t :: splitWs rest := by
  unfold splitWs
  rw [splitWsGo_token t (' ' :: rest) [] ht]
  simp [splitWsGo, hne]

theorem splitWs_three (t1 t2 t3 : PyStr) (h1 : t1 ≠ []) (h2 : t2 ≠ []) (h3 : t3 ≠ [])
    (w1 : ∀ c ∈ t1, c.isWhitespace = false) (w2 : ∀ c ∈ t2, c.isWhitespace = false)
    (w3 : ∀ c ∈ t3, c.isWhitespace = false) :
    splitWs (t1 ++ ' ' :: (t2 ++ ' ' :: t3)) = [t1, t2, t3] := by
  rw [splitWs_token_sep t1 _ h1 w1, splitWs_token_sep t2 _ h2 w2,
    splitWs_single t3 h3 w3]

theorem dropWhile_ws_eq_self (l : PyStr) (h : ∀ c ∈ l, c.isWhitespace = false) :
    l.dropWhile Char.isWhitespace = l := by
  cases l with
  | nil => rfl
  | cons c cs => simp [List.dropWhile_cons, h c (by simp)]

theorem pyStrip_eq_self (l : PyStr) (h : ∀ c ∈ l, c.isWhitespace = false) :
    pyStrip l = l := by
  unfold pyStrip
  rw [dropWhile_ws_eq_self l h,
    dropWhile_ws_eq_self l.reverse (fun c hc => h c (List.mem_reverse.mp hc)),
    List.reverse_reverse]

theorem map_commaToSpace_eq_self (l : PyStr) (h : ∀ c ∈ l, c ≠ ',') :
    l.map commaToSpace = l := by
  induction l with
  | nil => rfl
  | cons c cs ih =>
      simp [commaToSpace, h c (by simp), ih (fun x hx => h x (by simp [hx]))]

theorem readLine_circleLine (c0 : Circle) : readLine (circleLine c0) = .ok (some c0) := by
  obtain ⟨x, y, r⟩ := c0
  have hnows : ∀ (i : Int) c, c ∈ intRepr i → c.isWhitespace = false :=
    fun i c hc => (intRepr_chars i c hc).1
  have hnoc : ∀ (i : Int) c, c ∈ intRepr i → c ≠ ',' :=
    fun i c hc => (intRepr_chars i c hc).2
  have hline_nows : ∀ ch ∈ circleLine (x, y, r), ch.isWhitespace = false := by
    intro ch hc
    simp only [circleLine, List.mem_append, List.mem_cons] at hc
    have h1 : ch ∈ intRepr x → ch.isWhitespace = false := hnows x ch
    have h2 : ch ∈ intRepr y → ch.isWhitespace = false := hnows y ch
    have h3 : ch ∈ intRepr r → ch.isWhitespace = false := hnows r ch
    have h4 : ch = ',' → ch.isWhitespace = false := fun hh => by simp [hh]
    tauto
  have hstrip : pyStrip (circleLine (x, y, r)) = circleLine (x, y, r) :=
    pyStrip_eq_self _ hline_nows
  have hmap : (circleLine (x, y, r)).map commaToSpace
      = intRepr x ++ ' ' :: (intRepr y ++ ' ' :: intRepr r) := by
    simp only [circleLine, List.map_append, List.map_cons]
    rw [map_commaToSpace_eq_self _ (hnoc x), map_commaToSpace_eq_self _ (hnoc y),
      map_commaToSpace_eq_self _ (hnoc r)]
    norm_num [commaToSpace]
  have hsplit : splitWs ((pyStrip (circleLine (x, y, r))).map commaToSpace)
      = [intRepr x, intRepr y, intRepr r] := by
    rw [hstrip, hmap]
    exact splitWs_three _ _ _ (intRepr_ne_nil x) (intRepr_ne_nil y) (intRepr_ne_nil r)
      (hnows x) (hnows y) (hnows r)
  rw [readLine, hsplit]
  simp [pyInt?_intRepr]

theorem read_csv_lines_circleLines (cs : List Circle) :
    read_csv_lines (cs.map circleLine) = .ok cs := by
  induction cs with
  | nil => rfl
  | cons c cs ih =>
      simp [read_csv_lines, readLine_circleLine, ih, Bind.bind, Except.bind, Except.map]

/-- C7: writing any store with `write_csv` and reading the same file
back with `read_csv` returns exactly the same triples in the same
order; an empty store writes an empty (zero-line) file. -/
theorem csv_round_trip (fs : FileSys) (path : PyStr) (circles : List Circle) :
    read_csv (write_csv fs path circles) path = .ok circles
    ∧ write_csv fs path [] path = some [] := by
  constructor
  · simp [read_csv, write_csv, read_csv_lines_circleLines]
  · simp [write_csv]

/-- A line whose token count differs from three is skipped (the
`continue` on line 29). -/
theorem readLine_eq_skip (line : PyStr)
    (h : (splitWs ((pyStrip line).map commaToSpace)).length ≠ 3) :
    readLine line = .ok none := by
  unfold readLine
  rcases hp : splitWs ((pyStrip line).map commaToSpace) with _ | ⟨a, _ | ⟨b, _ | ⟨c, _ | ⟨d, tl⟩⟩⟩⟩
  · simp [hp]
  · simp [hp]
  · simp [hp]
  · exfalso
    rw [hp] at h
    simp at h
  · simp [hp]

/-- C2, counterexample: `read_csv` can raise.  A present file whose
single line is `"a b c"` splits into exactly three tokens, so the read
reaches `int("a")`, which raises `ValueError` — the malformed row is
surfaced, not dropped. -/
theorem read_csv_raises_on_nonint_triple_cx :
    read_csv_lines ["a b c".toList] = .error ()
    ∧ read_csv (fun _ => some ["a b c".toList]) ("p.csv".toList) = .error () := by
  constructor
  · decide
  · decide

/-- C2 (amended): any line that does not split into exactly three
whitespace/comma-separated tokens is silently skipped, without
affecting the parsing of the other lines; but the read is not
exception-free — a line that does split into exactly three tokens, not
all of which are integer literals, raises an uncaught `ValueError`. -/
theorem read_csv_skips_wrong_arity :
    (∀ (pre post : List PyStr) (line : PyStr),
      (splitWs ((pyStrip line).map commaToSpace)).length ≠ 3 →
      read_csv_lines (pre ++ line :: post) = read_csv_lines (pre ++ post))
  ∧ read_csv_lines ["10,20".toList] = .ok []
  ∧ read_csv_lines ["x y z".toList] = .error () := by
  refine ⟨?_, by decide, by decide⟩
  intro pre post line h
  induction pre with
  | nil =>
      simp [read_csv_lines, readLine_eq_skip line h, Bind.bind, Except.bind]
  | cons p pre ih =>
      rcases hrl : readLine p with e | v
      · simp [read_csv_lines, hrl, Bind.bind, Except.bind]
      · rcases v with _ | c <;>
          simp [read_csv_lines, hrl, Bind.bind, Except.bind, ih]

theorem read_csv_skips_wrong_arity_witness :
    (splitWs ((pyStrip ("10,20".toList)).map commaToSpace)).length ≠ 3
    ∧ read_csv_lines ["1,2,3".toList, "10,20".toList, "4,5,6".toList]
        = read_csv_lines ["1,2,3".toList, "4,5,6".toList] :=
  ⟨by decide, read_csv_skips_wrong_arity.1 ["1,2,3".toList] ["4,5,6".toList]
    ("10,20".toList) (by decide)⟩

/-- C1, counterexample: the CSV write on line 161 is unconditional, so
when the image fails to decode the driver still writes — on a dataset
where `d/img.csv` holds the row `1,2,3` and `d/img.png` fails to
decode, `annotate_and_save` overwrites the file with an empty one
(`some []`), so the existing CSV is not left untouched. -/
theorem decode_failure_overwrites_csv_cx :
    ((annotate_and_save ("d".toList) (fun _ => false) (fun _ => [])
        (fun p => if p = "d/img.csv".toList then some ["1,2,3".toList] else none)
        ("img.png".toList)).toOption.map
          (fun res => (res.1 ("d/img.csv".toList), res.2)))
      = some (some [], false)
    ∧ (fun p : PyStr =>
        if p = "d/img.csv".toList then some ["1,2,3".toList] else none)
        ("d/img.csv".toList) = some ["1,2,3".toList] := by
  constructor
  · decide
  · decide

/-- C1 (amended): when the image fails to decode, `annotate_image`
returns the empty result `([], false)` without entering the loop, and
that image's interaction is skipped — but no write is skipped: the
driver still calls `write_csv` unconditionally, so an empty annotation
file is written at the image's CSV path, overwriting any existing
file. -/
theorem decode_failure_writes_empty_csv :
    (∀ (initial : List Circle) (evs : List Event),
      annotate_image false initial evs = ([], false))
  ∧ (∀ (dataset_dir img : PyStr) (decodes : PyStr → Bool)
       (events : PyStr → List Event) (fs : FileSys) (existing : List Circle),
      decodes (pathJoin dataset_dir img) = false →
      read_csv fs (csvPath dataset_dir img) = .ok existing →
      annotate_and_save dataset_dir decodes events fs img =
        .ok (write_csv fs (csvPath dataset_dir img) [], false)
      ∧ write_csv fs (csvPath dataset_dir img) [] (csvPath dataset_dir img)
          = some []) := by
  constructor
  · intro initial evs
    rfl
  · intro dd img dec ev fs ex hdec hread
    constructor
    · simp [annotate_and_save, hread, Bind.bind, Except.bind, hdec, annotate_image]
    · simp [write_csv]

theorem decode_failure_writes_empty_csv_witness :
    annotate_and_save ("d".toList) (fun _ => false) (fun _ => []) (fun _ => none)
        ("img.png".toList) =
      .ok (write_csv (fun _ => none) (csvPath ("d".toList) ("img.png".toList)) [],
        false)
    ∧ write_csv (fun _ => none) (csvPath ("d".toList) ("img.png".toList)) []
        (csvPath ("d".toList) ("img.png".toList)) = some [] :=
  decode_failure_writes_empty_csv.2 ("d".toList) ("img.png".toList)
    (fun _ => false) (fun _ => []) (fun _ => none) [] rfl rfl

/-- C8: single-image mode (`--single`) with a non-empty name that is
not among the discoverable images takes the not-found message path
(line 147): the file system is returned untouched — no annotation file
is written — and `main` returns normally. -/
theorem single_missing_image_not_found
    (argv : List PyStr) (isdir : PyStr → Bool) (listdir : PyStr → List PyStr)
    (decodes : PyStr → Bool) (events : PyStr → List Event) (fs : FileSys)
    (ds t : PyStr)
    (hparse : parse_args argv = (ds, some t, false))
    (ht : t ≠ [])
    (hdir : isdir ds = true)
    (hne : list_images (listdir ds) ≠ [])
    (hmiss : t ∉ list_images (listdir ds)) :
    main argv isdir listdir decodes events fs = .ok (.notFound, fs) := by
  rcases t with _ | ⟨c, cs⟩
  · exact absurd rfl ht
  · unfold main
    rw [hparse]
    simp [hdir, hne, pyTruthy, targetStr, hmiss]

theorem single_missing_image_not_found_witness :
    main ["--single".toList, "missing.png".toList] (fun _ => true)
        (fun _ => ["a.png".toList]) (fun _ => true) (fun _ => []) (fun _ => none)
      = .ok (.notFound, fun _ => none) := by
  apply single_missing_image_not_found _ _ _ _ _ _ DATASET_DIR_DEFAULT
    ("missing.png".toList)
  · decide
  · decide
  · rfl
  · decide
  · decide

/-- One event leaves the heap unchanged or rewrites only the cell the
local `saved` references. -/
theorem heapStep_shape (s : HeapState) (e : Event) :
    (heapStep s e).savedId = s.savedId ∧
    ((heapStep s e).cells = s.cells ∨
      ∃ v, (heapStep s e).cells = s.cells.set s.savedId v) := by
  unfold heapStep
  split
  · exact ⟨rfl, Or.inl rfl⟩
  · cases e <;> dsimp only <;> split_ifs <;>
      first
        | exact ⟨rfl, Or.inl rfl⟩
        | exact ⟨rfl, Or.inr ⟨_, rfl⟩⟩

/-- One event only ever mutates the list object the local `saved`
references; every other heap cell is untouched. -/
theorem heapStep_frame (s : HeapState) (e : Event) :
    (heapStep s e).savedId = s.savedId ∧
    ∀ j, j ≠ s.savedId → (heapStep s e).cells[j]? = s.cells[j]? := by
  obtain ⟨h1, h2 | ⟨v, h2⟩⟩ := heapStep_shape s e
  · exact ⟨h1, fun j hj => by rw [h2]⟩
  · exact ⟨h1, fun j hj => by rw [h2]; exact List.getElem?_set_ne (Ne.symm hj)⟩

theorem foldl_heapStep_frame (evs : List Event) :
    ∀ (s : HeapState) (j : Nat), j ≠ s.savedId →
      (evs.foldl heapStep s).cells[j]? = s.cells[j]? ∧
      (evs.foldl heapStep s).savedId = s.savedId := by
  induction evs with
  | nil => intro s j hj; exact ⟨rfl, rfl⟩
  | cons e evs ih =>
      intro s j hj
      obtain ⟨h1, h2⟩ := heapStep_frame s e
      obtain ⟨h3, h4⟩ := ih (heapStep s e) j (by rw [h1]; exact hj)
      exact ⟨by rw [List.foldl_cons, h3, h2 j hj], by rw [List.foldl_cons, h4, h1]⟩

/-- C10: `annotate_image` never mutates the caller's `initial` list
object: `saved = list(initial)` (line 47) allocates a fresh cell and
every append/pop targets that cell, so after the run — whatever the
events and whether or not the image decoded — the heap cell holding the
caller's list is element-for-element unchanged. -/
theorem annotate_image_never_mutates_initial (decodes : Bool)
    (cells : List (List Circle)) (initId : Nat) (evs : List Event)
    (h : initId < cells.length) :
    (annotate_image_heap decodes cells initId evs).cells[initId]? = cells[initId]? := by
  unfold annotate_image_heap
  split
  · exact List.getElem?_append_left h
  · have hfr := foldl_heapStep_frame evs
      { cells := cells ++ [cells.getD initId []], savedId := cells.length,
        center := (-1, -1), drawing := false, preview_radius := 0,
        quit_all := false, done := false } initId
      (by show initId ≠ cells.length; omega)
    rw [hfr.1]
    exact List.getElem?_append_left h

theorem annotate_image_never_mutates_initial_witness :
    (annotate_image_heap true ([[(1, 2, 3)]] : List (List Circle)) 0
        [Event.lbuttonDown 0 0, Event.lbuttonDown 3 4, Event.key 117,
         Event.key 117, Event.key 32]).cells[0]?
      = ([[(1, 2, 3)]] : List (List Circle))[0]?
    ∧ ([[(1, 2, 3)]] : List (List Circle))[0]? = some [(1, 2, 3)] :=
  ⟨annotate_image_never_mutates_initial true ([[(1, 2, 3)]] : List (List Circle)) 0
    [Event.lbuttonDown 0 0, Event.lbuttonDown 3 4, Event.key 117,
     Event.key 117, Event.key 32] (by decide), by decide⟩

example : natSqrt 100 = 10 := by decide
example : pyInt? ("10".toList) = some 10 := by decide
example : pyInt? ("-7".toList) = some (-7) := by decide
example : pyInt? ("+7".toList) = some 7 := by decide
example : pyInt? ("a".toList) = none := by decide
example : pyInt? ("-".toList) = none := by decide
example : pyInt? ("".toList) = none := by decide
example : intRepr (-105) = "-105".toList := by decide
example : intRepr 0 = "0".toList := by decide
example : splitWs ("  10  20 30 ".toList) = ["10".toList, "20".toList, "30".toList] := by
  decide
example : readLine ("10,20,30".toList) = .ok (some (10, 20, 30)) := by decide
example : readLine ("10 20 30".toList) = .ok (some (10, 20, 30)) := by decide
example : readLine ("10,20".toList) = .ok none := by decide
example : readLine ("a b c".toList) = .error () := by decide
example : read_csv_lines ["10,20".toList, "1,2,3".toList] = .ok [(1, 2, 3)] := by decide
example : readLine (circleLine (-3, 0, 17)) = .ok (some (-3, 0, 17)) := by decide
example : splitext ("img.png".toList) = ("img".toList, ".png".toList) := by decide
example : splitext (".bashrc".toList) = (".bashrc".toList, []) := by decide
example : splitext ("a.tar.gz".toList) = ("a.tar".toList, ".gz".toList) := by decide
example :
    list_images ["b.PNG".toList, "x.txt".toList, "a.jpg".toList] =
      ["a.jpg".toList, "b.PNG".toList] := by decide
example :
    parse_args [] = (DATASET_DIR_DEFAULT, none, false) := by decide
example :
    parse_args ["--single".toList, "m.png".toList] =
      (DATASET_DIR_DEFAULT, some ("m.png".toList), false) := by decide
example :
    parse_args ["--dataset".toList, "d".toList, "-h".toList] =
      ("d".toList, none, true) := by decide
example :
    parse_args ["--dataset".toList] = (DATASET_DIR_DEFAULT, none, true) := by decide
example :
    parse_args ["bogus".toList, "--single".toList, "m".toList] =
      (DATASET_DIR_DEFAULT, some ("m".toList), true) := by decide
example : pathJoin ("d".toList) ("img.csv".toList) = "d/img.csv".toList := by decide
example : roundHypot 3 4 = 5 := by decide
example : roundHypot (-1) 1 = 1 := by decide
example : roundHypot 1 2 = 2 := by decide
example : roundHypot 0 0 = 0 := by decide
example :
    annotate_image true [] [.lbuttonDown 100 100, .mouseMove 100 120,
      .lbuttonDown 100 150, .key 32] = ([(100, 100, 50)], false) := by decide
example :
    annotate_image true [] [.lbuttonDown 0 0, .key 32] = ([], false) := by decide
example :
    (runEvents (initState []) [.lbuttonDown 0 0, .key 32]).done = true := by decide
example :
    annotate_image true [(1, 2, 3)] [.key 27] = ([(1, 2, 3)], true) := by decide
example :
    annotate_image true [(1, 2, 3)] [.key 117, .key 32] = ([], false) := by decide

end Annotate
